import Mathlib

/-!
Shallow embedding of the inventory concurrency controller, cart service and
order pipeline of the ItwaarBazaar e-commerce backend.

Sources embedded:
* `src/models/Product.js` — product schema, `updateStockSafe`, `lockProduct`;
* `src/unnamed/part_007` — order routes (`POST /api/orders`,
  `PATCH /api/orders/:id/status`, `PATCH /api/orders/:id/cancel`) and product
  routes (`PUT /api/products/:id`, `PATCH /api/products/:id/stock`);
* `src/scripts/seed.js` (cart section) — `POST /api/cart/add`,
  `clearCartForUser`;
* `src/server.js` — order schema.

The MongoDB document store is modelled as an association list keyed by
numeric ids; each Mongo operation (`findById`, `findOneAndUpdate`, ...) is a
pure function on that list, and a `findOneAndUpdate` with a filter is an
atomic conditional read-modify-write, which is exactly the atomicity MongoDB
grants a single-document update. Money amounts are exact rationals;
`Math.round(x * 100) / 100` becomes `round2`. Timestamps are integers
(milliseconds).
-/

namespace ItwaarBazaar

/-- A product document (`productSchema` in `src/models/Product.js`).
Fields not relevant to stock, locking, pricing or activation are omitted. -/
structure Product where
  name : String
  price : ℚ
  stock : ℤ
  version : ℕ
  isLocked : Bool
  lockedAt : Option ℤ
  lockedBy : Option ℕ
  isActive : Bool
  totalSold : ℤ
  deriving Repr, DecidableEq

/-- The product collection: an association list from product id to document. -/
abbrev Store := List (ℕ × Product)

/-- Point read by key — models `findById` / `findOne {_id: k}`. -/
def findKV {α : Type} : List (ℕ × α) → ℕ → Option α
  | [], _ => none
  | kv :: rest, k => if kv.1 = k then some kv.2 else findKV rest k

/-- Replace the value stored at key `k` (no-op when the key is absent) —
models the write half of a matched `findOneAndUpdate`. -/
def setKV {α : Type} : List (ℕ × α) → ℕ → α → List (ℕ × α)
  | [], _, _ => []
  | kv :: rest, k, v =>
    if kv.1 = k then (k, v) :: setKV rest k v else kv :: setKV rest k v

/-- The typed failures thrown by `Product.updateStockSafe`
(`src/models/Product.js`, lines 103–131). `writeConflict` is the single
`throw` fired when the conditional `findOneAndUpdate` matched no document —
the message reads "concurrent modification or product is locked". -/
inductive StockError where
  | notFound
  | insufficientStock
  | writeConflict
  deriving Repr, DecidableEq

/-- Read phase of `updateStockSafe`: `findById`, capture `version`, compute
`newStock = stock + quantityChange` and reject a negative result
(`src/models/Product.js`, lines 103–113). Returns the version read. -/
def stockReadPhase (s : Store) (pid : ℕ) (d : ℤ) : Except StockError ℕ :=
  match findKV s pid with
  | none => .error .notFound
  | some p =>
    if p.stock + d < 0 then .error .insufficientStock
    else .ok p.version

/-- Write phase of `updateStockSafe`: the single conditional
`findOneAndUpdate({_id, version: currentVersion, isLocked: false},
{$inc: {stock: d, version: 1}})` (`src/models/Product.js`, lines 116–131).
A missing document and a failed condition both surface as the one
`writeConflict` throw. -/
def stockWritePhase (s : Store) (pid : ℕ) (d : ℤ) (ver : ℕ) :
    Except StockError (Store × Product) :=
  match findKV s pid with
  | none => .error .writeConflict
  | some p =>
    if p.version = ver ∧ p.isLocked = false then
      let p2 : Product := { p with stock := p.stock + d, version := p.version + 1 }
      .ok (setKV s pid p2, p2)
    else .error .writeConflict

/-- `Product.updateStockSafe(productId, quantityChange)`: read phase followed
by the conditional write (`src/models/Product.js`, lines 99–134). -/
def updateStockSafe (s : Store) (pid : ℕ) (d : ℤ) :
    Except StockError (Store × Product) :=
  match stockReadPhase s pid d with
  | .error e => .error e
  | .ok ver => stockWritePhase s pid d ver

/-- Lock timeout used by `lockProduct`: five minutes in milliseconds
(`src/models/Product.js`, line 141). -/
def lockTimeoutMs : ℤ := 5 * 60 * 1000

/-- The `$or` filter of `lockProduct`'s conditional write: no lock held, or
the held lock's `lockedAt` is older than `now - lockTimeoutMs`. A missing
`lockedAt` (null) does not satisfy the `$lt` comparison. -/
def lockAcquirable (p : Product) (now : ℤ) : Bool :=
  !p.isLocked ||
    (match p.lockedAt with
     | some t => decide (t < now - lockTimeoutMs)
     | none => false)

/-- The failure thrown by `lockProduct`: "Product is currently locked by
another operation" (also fired when the product id matches nothing). -/
inductive LockError where
  | locked
  deriving Repr, DecidableEq

/-- `Product.lockProduct(productId, userId)` (`src/models/Product.js`,
lines 137–166): a single conditional `findOneAndUpdate` that acquires the
pessimistic lock, silently reclaiming a stale one. `now` is the current
clock reading `Date.now()`. -/
def lockProduct (s : Store) (pid : ℕ) (userId : ℕ) (now : ℤ) :
    Except LockError (Store × Product) :=
  match findKV s pid with
  | none => .error .locked
  | some p =>
    if lockAcquirable p now then
      let p2 : Product :=
        { p with isLocked := true, lockedAt := some now, lockedBy := some userId }
      .ok (setKV s pid p2, p2)
    else .error .locked

/-- Order status enumeration (`orderSchema` in `src/server.js`). -/
inductive OrderStatus where
  | pending
  | processing
  | shipped
  | delivered
  | cancelled
  deriving Repr, DecidableEq

/-- One order line (`orderItemSchema` in `src/server.js`): a point-in-time
copy of the product's name and price, with `total` as stored. -/
structure OrderItem where
  productId : ℕ
  productName : String
  quantity : ℕ
  price : ℚ
  total : ℚ
  deriving Repr, DecidableEq

/-- An order record (`orderSchema` in `src/server.js`), restricted to the
fields the verified operations read or write. -/
structure Order where
  userId : ℕ
  items : List OrderItem
  totalAmount : ℚ
  status : OrderStatus
  deriving Repr, DecidableEq

/-- The orders collection. -/
abbrev Orders := List (ℕ × Order)

/-- One cart line (`src/scripts/seed.js`, cart section): price is the
snapshot taken when the line was first added. -/
structure CartItem where
  productId : ℕ
  productName : String
  price : ℚ
  quantity : ℕ
  total : ℚ
  deriving Repr, DecidableEq

/-- A user's cart (the values of the in-memory `userCarts` map). -/
structure Cart where
  items : List CartItem
  deriving Repr, DecidableEq

/-- The in-memory per-user cart map `userCarts`. -/
abbrev Carts := List (ℕ × Cart)

/-- Drop every binding of key `k`. -/
def removeKey {α : Type} : List (ℕ × α) → ℕ → List (ℕ × α)
  | [], _ => []
  | kv :: rest, k => if kv.1 = k then removeKey rest k else kv :: removeKey rest k

/-- `userCarts.set(userId, cart)`: JavaScript `Map.set` — the new binding
shadows any previous one and every other key keeps its value. -/
def setCart (cs : Carts) (uid : ℕ) (c : Cart) : Carts :=
  (uid, c) :: removeKey cs uid

/-- `clearCartForUser(userId)` (`src/scripts/seed.js`, lines 1196–1198):
resets the user's cart to an empty item list. -/
def clearCartForUser (cs : Carts) (uid : ℕ) : Carts := setCart cs uid ⟨[]⟩

/-- `Math.round(q * 100) / 100` on exact rationals — JavaScript `Math.round`
is `⌊x + 1/2⌋` (half rounds toward positive infinity). Written with `mkRat`
and `Rat.floor`, which are definitionally evaluable; `round2_eq` below
states the same function with `⌊⌋` and `/`. -/
def round2 (q : ℚ) : ℚ := mkRat (q * 100 + mkRat 1 2).floor 100

/-- Failures of the order-placement transaction (`POST /api/orders`,
`src/unnamed/part_007`): the empty-items 400, the two validation throws, and
an `updateStockSafe` throw at commit time. -/
inductive OrderError where
  | noItems
  | productUnavailable (pid : ℕ)
  | insufficientStock (pid : ℕ)
  | stockUpdateFailed (e : StockError)
  deriving Repr, DecidableEq

/-- Step 1 of the order transaction (`src/unnamed/part_007`, lines 44–67):
re-fetch each product in the session, reject a missing or inactive product
and a line whose quantity exceeds current stock, and build the order items
with `total = quantity * price` (no per-line rounding in the source). -/
def validateItems (s : Store) : List (ℕ × ℕ) → Except OrderError (List OrderItem)
  | [] => .ok []
  | (pid, qty) :: rest =>
    match findKV s pid with
    | none => .error (.productUnavailable pid)
    | some p =>
      if p.isActive = false then .error (.productUnavailable pid)
      else if p.stock < (qty : ℤ) then .error (.insufficientStock pid)
      else
        match validateItems s rest with
        | .error e => .error e
        | .ok tl =>
          .ok ({ productId := pid, productName := p.name, quantity := qty,
                 price := p.price, total := (qty : ℚ) * p.price } :: tl)

/-- The running total accumulated by the validation loop
(`totalAmount += orderItem.total`). -/
def sumTotals (l : List OrderItem) : ℚ := l.foldl (fun a it => a + it.total) 0

/-- `findByIdAndUpdate(pid, {$inc: {totalSold: qty}})` in step 3 of the
order transaction. -/
def incTotalSold (s : Store) (pid : ℕ) (q : ℕ) : Store :=
  match findKV s pid with
  | none => s
  | some p => setKV s pid { p with totalSold := p.totalSold + (q : ℤ) }

/-- Step 3 of the order transaction (`src/unnamed/part_007`, lines 85–96):
for each line, `updateStockSafe` with the negated quantity, then the
`totalSold` increment; the first failure aborts the transaction. -/
def decrementAll (s : Store) : List OrderItem → Except OrderError Store
  | [] => .ok s
  | it :: rest =>
    match updateStockSafe s it.productId (-(it.quantity : ℤ)) with
    | .error e => .error (.stockUpdateFailed e)
    | .ok (s2, _) => decrementAll (incTotalSold s2 it.productId it.quantity) rest

/-- Step 2 of the order transaction: the order record built from the
validated lines, with `totalAmount = Math.round(sum * 100) / 100` and
status `pending` (`src/unnamed/part_007`, lines 70–79). -/
def mkOrder (uid : ℕ) (oitems : List OrderItem) : Order :=
  { userId := uid, items := oitems,
    totalAmount := round2 (sumTotals oitems), status := .pending }

/-- The body of `session.withTransaction` in `POST /api/orders`
(`src/unnamed/part_007`, lines 36–100): validate every line, create the
order record with the rounded total, decrement stock per line. Any error
aborts; the caller discards all effects in that case. -/
def placeOrderTxn (s : Store) (os : Orders) (uid : ℕ) (items : List (ℕ × ℕ)) :
    Except OrderError (Store × Orders × Order) :=
  match validateItems s items with
  | .error e => .error e
  | .ok oitems =>
    match decrementAll s oitems with
    | .error e => .error e
    | .ok s2 =>
      .ok (s2, os ++ [(os.length, mkOrder uid oitems)], mkOrder uid oitems)

/-- The whole mutable state the verified routes touch. -/
structure SystemState where
  store : Store
  carts : Carts
  orders : Orders
  deriving Repr, DecidableEq

/-- `POST /api/orders` (`src/unnamed/part_007`, lines 12–136): empty item
list rejected up front; the transaction commits all-or-nothing (MongoDB
aborts the session's writes when the callback throws); on success the user's
cart is cleared outside the transaction. -/
def placeOrder (st : SystemState) (uid : ℕ) (items : List (ℕ × ℕ)) :
    SystemState × Except OrderError Order :=
  if items.isEmpty then (st, .error .noItems)
  else
    match placeOrderTxn st.store st.orders uid items with
    | .error e => (st, .error e)
    | .ok (s2, os2, o) =>
      ({ store := s2, carts := clearCartForUser st.carts uid, orders := os2 }, .ok o)

/-- Failures of the cancel and status routes. `invalidState` is the 400
"Cannot cancel order. Current status: ..." response. -/
inductive CancelError where
  | notFound
  | invalidState
  deriving Repr, DecidableEq

/-- The stock-restoration loop shared by the cancel route and the status
route (`src/unnamed/part_007`, lines 397–404 and 243–251): one
`updateStockSafe(+quantity)` per line inside a single try/catch, so the
first failure stops the loop; the error is logged and swallowed. The
boolean records whether every restoration succeeded. -/
def restoreAll (s : Store) : List OrderItem → Store × Bool
  | [] => (s, true)
  | it :: rest =>
    match updateStockSafe s it.productId (it.quantity : ℤ) with
    | .error _ => (s, false)
    | .ok (s2, _) => restoreAll s2 rest

/-- `PATCH /api/orders/:id/cancel` (`src/unnamed/part_007`, lines 369–418):
owner-scoped lookup, pending-only guard, status set to cancelled and saved,
then the best-effort stock restoration. -/
def cancelOrder (st : SystemState) (oid : ℕ) (uid : ℕ) :
    SystemState × Except CancelError Order :=
  match findKV st.orders oid with
  | none => (st, .error .notFound)
  | some o =>
    if o.userId ≠ uid then (st, .error .notFound)
    else if o.status ≠ .pending then (st, .error .invalidState)
    else
      let o2 : Order := { o with status := OrderStatus.cancelled }
      ({ store := (restoreAll st.store o.items).1, carts := st.carts,
         orders := setKV st.orders oid o2 }, .ok o2)

/-- `PATCH /api/orders/:id/status` (`src/unnamed/part_007`, lines 211–266):
admin-only `findByIdAndUpdate` that writes the requested status with no
transition check. Its restore branch tests `status === 'cancelled' &&
order.status !== 'cancelled'` on the `{new: true}` post-update document, so
the condition is contradictory and the branch never runs. -/
def updateOrderStatus (st : SystemState) (oid : ℕ) (newStatus : OrderStatus) :
    SystemState × Except CancelError Order :=
  match findKV st.orders oid with
  | none => (st, .error .notFound)
  | some o =>
    let o2 : Order := { o with status := newStatus }
    ({ store := if newStatus = .cancelled ∧ o2.status ≠ .cancelled
                then (restoreAll st.store o2.items).1 else st.store,
       carts := st.carts,
       orders := setKV st.orders oid o2 }, .ok o2)

/-- The stock case of `PUT /api/products/:id` (`src/unnamed/part_007`,
lines 625–675): `findByIdAndUpdate(id, {stock: n}, {runValidators: true})`.
Express-validator and the schema validator force `n ≥ 0` (hence `ℕ`);
`findByIdAndUpdate` bypasses the `pre('save')` hook, so no field other than
`stock` changes. -/
def adminUpdateProductStock (s : Store) (pid : ℕ) (newStock : ℕ) :
    Store × Option Product :=
  match findKV s pid with
  | none => (s, none)
  | some p =>
    let p2 : Product := { p with stock := (newStock : ℤ) }
    (setKV s pid p2, some p2)

/-- Failures of `POST /api/cart/add`: the 404 on a missing or inactive
product and the 400 on insufficient stock. -/
inductive CartError where
  | notFound
  | insufficientStock
  deriving Repr, DecidableEq

/-- `cart.items.findIndex(item => item.productId === productId)` resolved to
the first matching line. -/
def findCartItem : List CartItem → ℕ → Option CartItem
  | [], _ => none
  | it :: rest, pid => if it.productId = pid then some it else findCartItem rest pid

/-- In-place update of the first line with the given product id, as the
route mutates `cart.items[existingItemIndex]`. -/
def updateFirstItem : List CartItem → ℕ → CartItem → List CartItem
  | [], _, _ => []
  | it :: rest, pid, newIt =>
    if it.productId = pid then newIt :: rest
    else it :: updateFirstItem rest pid newIt

/-- `POST /api/cart/add` (`src/scripts/seed.js`, lines 857–956): fetch the
product filtered on `isActive`, reject when stock is short (against the new
quantity alone for a fresh line, against existing + new for a merge); a
fresh line stores a full price snapshot, a merged line gets its `quantity`
and `total` overwritten — `total` uses the current price while the stored
`price` field keeps the old snapshot. Returns the map after `set` and the
line the response echoes back. -/
def addToCart (s : Store) (cs : Carts) (uid : ℕ) (pid : ℕ) (qty : ℕ) :
    Except CartError (Carts × CartItem) :=
  match findKV s pid with
  | none => .error .notFound
  | some p =>
    if p.isActive = false then .error .notFound
    else if p.stock < (qty : ℤ) then .error .insufficientStock
    else
      let cart := (findKV cs uid).getD ⟨[]⟩
      match findCartItem cart.items pid with
      | some old =>
        let newQ := old.quantity + qty
        if p.stock < (newQ : ℤ) then .error .insufficientStock
        else
          let it2 : CartItem := { old with quantity := newQ, total := (newQ : ℚ) * p.price }
          .ok (setCart cs uid ⟨updateFirstItem cart.items pid it2⟩, it2)
      | none =>
        let it2 : CartItem := { productId := pid, productName := p.name,
                                price := p.price, quantity := qty,
                                total := (qty : ℚ) * p.price }
        .ok (setCart cs uid ⟨cart.items ++ [it2]⟩, it2)

/-- The stock invariant: every product in the store has non-negative stock. -/
def storeNonneg (s : Store) : Prop :=
  ∀ pid p, findKV s pid = some p → 0 ≤ p.stock

/-- A requested line that the order validation loop must reject: the product
is missing, inactive, or understocked for the requested quantity. -/
def lineBadB (s : Store) (pq : ℕ × ℕ) : Bool :=
  match findKV s pq.1 with
  | none => true
  | some p => !p.isActive || decide (p.stock < (pq.2 : ℤ))

/-- Total quantity the restoration loop owes a given product: the sum of the
quantities of the order lines naming it. -/
def sumQty : List OrderItem → ℕ → ℤ
  | [], _ => 0
  | it :: rest, pid =>
    (if it.productId = pid then (it.quantity : ℤ) else 0) + sumQty rest pid

/-! ### Concrete fixtures used by witnesses and counterexamples -/

/-- The spec's running example: stock 10, version 3, unlocked, active. -/
def specProduct : Product :=
  { name := "P", price := 100, stock := 10, version := 3, isLocked := false,
    lockedAt := none, lockedBy := none, isActive := true, totalSold := 0 }

def specStore : Store := [(1, specProduct)]

/-- `specProduct` after a committed adjustment of −6. -/
def specProduct1 : Product := { specProduct with stock := 4, version := 4 }

def specStore1 : Store := [(1, specProduct1)]

/-- `specProduct` locked by actor 8 at time 1000. -/
def specProductLocked : Product :=
  { specProduct with isLocked := true, lockedAt := some 1000, lockedBy := some 8 }

/-! ### Helper lemmas -/

theorem mkRat_one_two : (mkRat 1 2 : ℚ) = 1 / 2 := by
  rw [Rat.mkRat_eq_div]
  norm_num

theorem ratFloor_eq_floor (q : ℚ) : q.floor = ⌊q⌋ := by
  rw [Rat.floor_def', Rat.floor_def]

/-- `round2` is the currency rounding `⌊q·100 + 1/2⌋ / 100`. -/
theorem round2_eq (q : ℚ) : round2 q = ((⌊q * 100 + 1 / 2⌋ : ℤ) : ℚ) / 100 := by
  unfold round2
  rw [Rat.mkRat_eq_div, ratFloor_eq_floor, mkRat_one_two]
  norm_num

theorem findKV_setKV_self {α : Type} (l : List (ℕ × α)) (k : ℕ) (v : α) :
    findKV (setKV l k v) k = (findKV l k).map (fun _ => v) := by
  induction l with
  | nil => simp [findKV, setKV]
  | cons kv rest ih =>
    by_cases h : kv.1 = k
    · simp [findKV, setKV, h]
    · simp [findKV, setKV, h, ih]

theorem findKV_setKV_ne {α : Type} (l : List (ℕ × α)) (k k' : ℕ) (v : α)
    (h : k' ≠ k) : findKV (setKV l k v) k' = findKV l k' := by
  induction l with
  | nil => simp [setKV]
  | cons kv rest ih =>
    by_cases hk : kv.1 = k
    · subst hk
      simp [findKV, setKV, Ne.symm h, ih]
    · by_cases hk' : kv.1 = k'
      · simp [findKV, setKV, hk, hk', h]
      · simp [findKV, setKV, hk, hk', ih]

theorem stockWritePhase_ok {s : Store} {pid : ℕ} {d : ℤ} {ver : ℕ}
    {s' : Store} {p' : Product}
    (h : stockWritePhase s pid d ver = .ok (s', p')) :
    ∃ p, findKV s pid = some p ∧ p.version = ver ∧ p.isLocked = false ∧
      p' = { p with stock := p.stock + d, version := p.version + 1 } ∧
      s' = setKV s pid p' := by
  unfold stockWritePhase at h
  split at h
  next hf => exact absurd h (by simp)
  next p hf =>
    split at h
    next hc =>
      have h2 := Except.ok.inj h
      have hp2 : p' = { p with stock := p.stock + d, version := p.version + 1 } :=
        (congrArg Prod.snd h2).symm
      refine ⟨p, hf, hc.1, hc.2, hp2, ?_⟩
      rw [hp2]
      exact (congrArg Prod.fst h2).symm
    next hc => exact absurd h (by simp)

theorem updateStockSafe_ok {s : Store} {pid : ℕ} {d : ℤ} {s' : Store}
    {p' : Product} (h : updateStockSafe s pid d = .ok (s', p')) :
    ∃ p, findKV s pid = some p ∧ 0 ≤ p.stock + d ∧ p.isLocked = false ∧
      p' = { p with stock := p.stock + d, version := p.version + 1 } ∧
      s' = setKV s pid p' := by
  unfold updateStockSafe stockReadPhase at h
  split at h
  next e he =>
    split at he
    next => exact absurd h (by cases he; simp)
    next p hf =>
      split at he
      next => exact absurd h (by cases he; simp)
      next => exact absurd he (by simp)
  next ver he =>
    split at he
    next => exact absurd he (by simp)
    next p hf =>
      split at he
      next => exact absurd he (by simp)
      next hns =>
        obtain ⟨q, hq, hver, hlock, hp', hs'⟩ := stockWritePhase_ok h
        rw [hf] at hq
        cases hq
        exact ⟨p, hf, not_lt.mp hns, hlock, hp', hs'⟩

theorem updateStockSafe_mk {s : Store} {pid : ℕ} {p : Product} (d : ℤ)
    (hf : findKV s pid = some p) (hns : 0 ≤ p.stock + d)
    (hlock : p.isLocked = false) :
    updateStockSafe s pid d =
      .ok (setKV s pid { p with stock := p.stock + d, version := p.version + 1 },
           { p with stock := p.stock + d, version := p.version + 1 }) := by
  unfold updateStockSafe stockReadPhase stockWritePhase
  rw [hf]
  simp [not_lt.mpr hns, hlock]

theorem updateStockSafe_frame {s : Store} {pid : ℕ} {d : ℤ} {s' : Store}
    {p' : Product} (h : updateStockSafe s pid d = .ok (s', p')) {q : ℕ}
    (hq : q ≠ pid) : findKV s' q = findKV s q := by
  obtain ⟨p, _, _, _, _, hs'⟩ := updateStockSafe_ok h
  rw [hs']
  exact findKV_setKV_ne s pid q _ hq

theorem updateStockSafe_find {s : Store} {pid : ℕ} {d : ℤ} {s' : Store}
    {p' : Product} (h : updateStockSafe s pid d = .ok (s', p')) :
    findKV s' pid = some p' := by
  obtain ⟨p, hf, _, _, _, hs'⟩ := updateStockSafe_ok h
  rw [hs', findKV_setKV_self, hf]
  rfl

theorem storeNonneg_setKV {s : Store} {k : ℕ} {v : Product}
    (hs : storeNonneg s) (hv : 0 ≤ v.stock) : storeNonneg (setKV s k v) := by
  intro q pq hq
  by_cases hqk : q = k
  · subst hqk
    rw [findKV_setKV_self] at hq
    cases hf : findKV s q with
    | none => rw [hf] at hq; exact absurd hq (by simp)
    | some p0 =>
      rw [hf] at hq
      cases hq
      exact hv
  · rw [findKV_setKV_ne s k q v hqk] at hq
    exact hs q pq hq

theorem updateStockSafe_nonneg {s : Store} {pid : ℕ} {d : ℤ} {s' : Store}
    {p' : Product} (hs : storeNonneg s)
    (h : updateStockSafe s pid d = .ok (s', p')) : storeNonneg s' := by
  obtain ⟨p, hf, hns, _, hp', hs'⟩ := updateStockSafe_ok h
  rw [hs']
  exact storeNonneg_setKV hs (by rw [hp']; exact hns)

theorem incTotalSold_nonneg {s : Store} {pid : ℕ} {q : ℕ}
    (hs : storeNonneg s) : storeNonneg (incTotalSold s pid q) := by
  unfold incTotalSold
  cases hf : findKV s pid with
  | none => exact hs
  | some p => exact storeNonneg_setKV hs (hs pid p hf)

theorem decrementAll_nonneg {items : List OrderItem} :
    ∀ {s s' : Store}, storeNonneg s → decrementAll s items = .ok s' →
      storeNonneg s' := by
  induction items with
  | nil =>
    intro s s' hs h
    unfold decrementAll at h
    cases h
    exact hs
  | cons it rest ih =>
    intro s s' hs h
    unfold decrementAll at h
    cases hu : updateStockSafe s it.productId (-(it.quantity : ℤ)) with
    | error e => rw [hu] at h; exact absurd h (by simp)
    | ok r =>
      rw [hu] at h
      exact ih (incTotalSold_nonneg (updateStockSafe_nonneg hs hu)) h

theorem restoreAll_nonneg {items : List OrderItem} :
    ∀ {s : Store}, storeNonneg s → storeNonneg (restoreAll s items).1 := by
  induction items with
  | nil => intro s hs; exact hs
  | cons it rest ih =>
    intro s hs
    unfold restoreAll
    cases hu : updateStockSafe s it.productId (it.quantity : ℤ) with
    | error e => exact hs
    | ok r =>
      obtain ⟨s2, p2⟩ := r
      exact ih (updateStockSafe_nonneg hs hu)

theorem findKV_removeKey_ne {α : Type} {cs : List (ℕ × α)} {uid u : ℕ}
    (h : u ≠ uid) : findKV (removeKey cs uid) u = findKV cs u := by
  induction cs with
  | nil => rfl
  | cons kv rest ih =>
    by_cases hk : kv.1 = uid
    · have hku : kv.1 ≠ u := by rw [hk]; exact Ne.symm h
      simp [removeKey, hk, findKV, hku, ih, Ne.symm h]
    · by_cases hku : kv.1 = u
      · simp [removeKey, hk, findKV, hku, h]
      · simp [removeKey, hk, findKV, hku, ih]

theorem findKV_setCart_self (cs : Carts) (uid : ℕ) (c : Cart) :
    findKV (setCart cs uid c) uid = some c := by
  simp [setCart, findKV]

theorem findKV_setCart_ne (cs : Carts) (uid : ℕ) (c : Cart) {u : ℕ}
    (h : u ≠ uid) : findKV (setCart cs uid c) u = findKV cs u := by
  simp [setCart, findKV, Ne.symm h, findKV_removeKey_ne h]

/-! ### Claim theorems -/

/-- Claim C1: a conditional stock adjustment commits only if the stored
version still equals the version read at the start and the product is not
exclusively locked; on success the stock changes by exactly `d`, the version
is incremented by exactly one in the same single store operation, and the
updated snapshot is returned; two adjustments computed against the same read
version cannot both succeed. -/
theorem claim_C1 :
    (∀ s pid d s' p', updateStockSafe s pid d = .ok (s', p') →
       ∃ ver, stockReadPhase s pid d = .ok ver ∧
         stockWritePhase s pid d ver = .ok (s', p')) ∧
    (∀ s pid d ver s' p', stockWritePhase s pid d ver = .ok (s', p') →
       (∃ p, findKV s pid = some p ∧ p.version = ver ∧ p.isLocked = false ∧
          p'.stock = p.stock + d ∧ p'.version = ver + 1 ∧
          findKV s' pid = some p') ∧
       ∀ d2, stockWritePhase s' pid d2 ver = .error .writeConflict) := by
  constructor
  · intro s pid d s' p' h
    unfold updateStockSafe at h
    cases hr : stockReadPhase s pid d with
    | error e => rw [hr] at h; exact absurd h (by simp)
    | ok ver => rw [hr] at h; exact ⟨ver, rfl, h⟩
  · intro s pid d ver s' p' h
    obtain ⟨p, hf, hver, hlock, hp', hs'⟩ := stockWritePhase_ok h
    have hfind' : findKV s' pid = some p' := by
      rw [hs', findKV_setKV_self, hf]; rfl
    refine ⟨⟨p, hf, hver, hlock, by rw [hp'], by rw [hp', hver], hfind'⟩, ?_⟩
    intro d2
    unfold stockWritePhase
    rw [hfind']
    have : p'.version ≠ ver := by
      rw [hp', hver]; exact Nat.succ_ne_self ver
    simp [this]

/-- Witness for C1 at the spec's scenario: stock 10, version 3; an
adjustment of −6 committed against version 3 yields stock 4, version 4, and
a −5 adjustment still carrying read version 3 gets the conflict error. -/
theorem claim_C1_witness :
    (∃ p, findKV specStore 1 = some p ∧ p.version = 3 ∧ p.isLocked = false ∧
       specProduct1.stock = p.stock + (-6) ∧ specProduct1.version = 3 + 1 ∧
       findKV specStore1 1 = some specProduct1) ∧
    ∀ d2, stockWritePhase specStore1 1 d2 3 = .error .writeConflict :=
  claim_C1.2 specStore 1 (-6) 3 specStore1 specProduct1 rfl

/-- Claim C7: exclusive acquire succeeds exactly when no lock is held or the
held lock's timestamp is more than five minutes old (stale locks are
silently reclaimed, and success records holder and timestamp); it fails when
an unexpired lock is active; a lock taken by actor `a` at `t0` and never
released becomes acquirable by actor `b` at `t1` exactly once
`t1 - t0 > lockTimeoutMs`, and never before. -/
theorem claim_C7 :
    (∀ s pid uid now p, findKV s pid = some p →
       ((∃ s' p2, lockProduct s pid uid now = .ok (s', p2)) ↔
          (p.isLocked = false ∨
           ∃ t, p.lockedAt = some t ∧ now - t > lockTimeoutMs))) ∧
    (∀ s pid uid now s' p2, lockProduct s pid uid now = .ok (s', p2) →
       p2.isLocked = true ∧ p2.lockedAt = some now ∧ p2.lockedBy = some uid ∧
       findKV s' pid = some p2) ∧
    (∀ s pid uid now p, findKV s pid = some p → p.isLocked = true →
       (∀ t, p.lockedAt = some t → now - t ≤ lockTimeoutMs) →
       lockProduct s pid uid now = .error .locked) ∧
    (∀ s pid a b t0 t1 s1 p1, lockProduct s pid a t0 = .ok (s1, p1) →
       (t1 - t0 > lockTimeoutMs →
          ∃ s2 p2, lockProduct s1 pid b t1 = .ok (s2, p2) ∧
            p2.lockedBy = some b ∧ p2.lockedAt = some t1) ∧
       (t1 - t0 ≤ lockTimeoutMs → lockProduct s1 pid b t1 = .error .locked)) := by
  have hacq : ∀ (p : Product) (now : ℤ), lockAcquirable p now = true ↔
      (p.isLocked = false ∨ ∃ t, p.lockedAt = some t ∧ now - t > lockTimeoutMs) := by
    intro p now
    unfold lockAcquirable
    cases hL : p.isLocked with
    | false => simp
    | true =>
      cases hA : p.lockedAt with
      | none => simp
      | some t =>
        simp only [Bool.not_true, Bool.false_or, decide_eq_true_eq]
        constructor
        · intro ht
          exact Or.inr ⟨t, rfl, by omega⟩
        · rintro (hc | ⟨t2, ht2, hgt⟩)
          · exact absurd hc (by simp)
          · cases ht2; omega
  have hok : ∀ s pid uid now (p : Product), findKV s pid = some p →
      lockAcquirable p now = true →
      lockProduct s pid uid now =
        .ok (setKV s pid { p with isLocked := true, lockedAt := some now,
                                  lockedBy := some uid },
             { p with isLocked := true, lockedAt := some now,
                      lockedBy := some uid }) := by
    intro s pid uid now p hf ha
    unfold lockProduct
    rw [hf]
    simp [ha]
  have hfail : ∀ s pid uid now (p : Product), findKV s pid = some p →
      lockAcquirable p now = false →
      lockProduct s pid uid now = .error .locked := by
    intro s pid uid now p hf ha
    unfold lockProduct
    rw [hf]
    simp [ha]
  have hinv : ∀ s pid uid now s' p2, lockProduct s pid uid now = .ok (s', p2) →
      ∃ p, findKV s pid = some p ∧ lockAcquirable p now = true ∧
        p2 = { p with isLocked := true, lockedAt := some now,
                      lockedBy := some uid } ∧
        s' = setKV s pid p2 := by
    intro s pid uid now s' p2 h
    unfold lockProduct at h
    split at h
    next => exact absurd h (by simp)
    next p hf =>
      split at h
      next ha =>
        have h2 := Except.ok.inj h
        have hp2 : p2 = { p with isLocked := true, lockedAt := some now,
                                 lockedBy := some uid } :=
          (congrArg Prod.snd h2).symm
        refine ⟨p, hf, ha, hp2, ?_⟩
        rw [hp2]
        exact (congrArg Prod.fst h2).symm
      next => exact absurd h (by simp)
  refine ⟨?_, ?_, ?_, ?_⟩
  · intro s pid uid now p hf
    constructor
    · rintro ⟨s', p2, h⟩
      obtain ⟨q, hq, ha, _, _⟩ := hinv s pid uid now s' p2 h
      rw [hf] at hq
      cases hq
      exact (hacq p now).mp ha
    · intro hc
      exact ⟨_, _, hok s pid uid now p hf ((hacq p now).mpr hc)⟩
  · intro s pid uid now s' p2 h
    obtain ⟨p, hf, _, hp2, hs'⟩ := hinv s pid uid now s' p2 h
    refine ⟨by rw [hp2], by rw [hp2], by rw [hp2], ?_⟩
    rw [hs', findKV_setKV_self, hf]
    rfl
  · intro s pid uid now p hf hL hT
    refine hfail s pid uid now p hf ?_
    unfold lockAcquirable
    rw [hL]
    cases hA : p.lockedAt with
    | none => rfl
    | some t =>
      have := hT t hA
      simp only [Bool.not_true, Bool.false_or, decide_eq_false_iff_not]
      omega
  · intro s pid a b t0 t1 s1 p1 h
    obtain ⟨p, hf, _, hp1, hs1⟩ := hinv s pid a t0 s1 p1 h
    have hfind1 : findKV s1 pid = some p1 := by
      rw [hs1, findKV_setKV_self, hf]; rfl
    constructor
    · intro hgt
      have ha : lockAcquirable p1 t1 = true := by
        apply (hacq p1 t1).mpr
        exact Or.inr ⟨t0, by rw [hp1], hgt⟩
      exact ⟨_, _, hok s1 pid b t1 p1 hfind1 ha, by simp, by simp⟩
    · intro hle
      apply hfail s1 pid b t1 p1 hfind1
      have hL : p1.isLocked = true := by rw [hp1]
      have hA : p1.lockedAt = some t0 := by rw [hp1]
      unfold lockAcquirable
      rw [hL, hA]
      simp only [Bool.not_true, Bool.false_or, decide_eq_false_iff_not]
      omega

/-- Witness for C7: an unlocked product is locked by actor 8 at time 1000;
actor 9 is refused at exactly the five-minute mark and succeeds one
millisecond later. -/
theorem claim_C7_witness :
    (301001 - (1000 : ℤ) > lockTimeoutMs →
       ∃ s2 p2, lockProduct [(1, specProductLocked)] 1 9 301001 = .ok (s2, p2) ∧
         p2.lockedBy = some 9 ∧ p2.lockedAt = some 301001) ∧
    (301000 - (1000 : ℤ) ≤ lockTimeoutMs →
       lockProduct [(1, specProductLocked)] 1 9 301000 = .error .locked) :=
  ⟨fun hgt => (claim_C7.2.2.2 specStore 1 8 9 1000 301001 _ _ rfl).1 hgt,
   fun hle => (claim_C7.2.2.2 specStore 1 8 9 1000 301000 _ _ rfl).2 hle⟩

/-- Counterexample for C8: an active unexpired lock held by user 8 and a
stale read version both make the conditional write fail with the one shared
`writeConflict` error ("concurrent modification or product is locked"), so
the caller cannot tell Conflict from Locked apart. -/
theorem claim_C8_counterexample :
    updateStockSafe [(1, specProductLocked)] 1 (-1) = .error .writeConflict ∧
    stockWritePhase specStore 1 (-1) 2 = .error .writeConflict :=
  ⟨rfl, rfl⟩

/-- Claim C8 (amended): stock-adjustment failures are typed — `notFound`
when the product does not exist, `insufficientStock` when the delta would
drive stock negative — but a version mismatch and an active lock both
surface as the single shared `writeConflict` error, so Conflict and Locked
are not distinct failure reasons. -/
theorem claim_C8_amended :
    (∀ s pid d, findKV s pid = none →
       updateStockSafe s pid d = .error .notFound) ∧
    (∀ s pid d p, findKV s pid = some p → p.stock + d < 0 →
       updateStockSafe s pid d = .error .insufficientStock) ∧
    (∀ s pid d p, findKV s pid = some p → 0 ≤ p.stock + d →
       p.isLocked = true → updateStockSafe s pid d = .error .writeConflict) ∧
    (∀ s pid d ver p, findKV s pid = some p → p.version ≠ ver →
       stockWritePhase s pid d ver = .error .writeConflict) ∧
    (StockError.notFound ≠ StockError.insufficientStock ∧
     StockError.notFound ≠ StockError.writeConflict ∧
     StockError.insufficientStock ≠ StockError.writeConflict) := by
  refine ⟨?_, ?_, ?_, ?_, by decide⟩
  · intro s pid d hf
    unfold updateStockSafe stockReadPhase
    rw [hf]
  · intro s pid d p hf hneg
    unfold updateStockSafe stockReadPhase
    rw [hf]
    simp [hneg]
  · intro s pid d p hf hpos hlock
    unfold updateStockSafe stockReadPhase stockWritePhase
    rw [hf]
    simp [not_lt.mpr hpos, hlock]
  · intro s pid d ver p hf hver
    unfold stockWritePhase
    rw [hf]
    simp [hver]

/-- Witness for C8 (amended): each error class observed at a concrete
input — missing id 2, an oversized decrement, a locked product, and a write
carrying a stale version. -/
theorem claim_C8_witness :
    updateStockSafe specStore 2 (-1) = .error .notFound ∧
    updateStockSafe specStore 1 (-11) = .error .insufficientStock ∧
    updateStockSafe [(1, specProductLocked)] 1 (-1) = .error .writeConflict ∧
    stockWritePhase specStore 1 (-1) 7 = .error .writeConflict :=
  ⟨claim_C8_amended.1 specStore 2 (-1) rfl,
   claim_C8_amended.2.1 specStore 1 (-11) specProduct rfl (by decide),
   claim_C8_amended.2.2.1 [(1, specProductLocked)] 1 (-1) specProductLocked rfl
     (by decide) rfl,
   claim_C8_amended.2.2.2.1 specStore 1 (-1) 7 specProduct rfl (by decide)⟩

theorem validateItems_error_of_bad {s : Store} :
    ∀ {items : List (ℕ × ℕ)}, (∃ x ∈ items, lineBadB s x = true) →
      ∃ e, validateItems s items = .error e := by
  intro items
  induction items with
  | nil => rintro ⟨x, hx, _⟩; exact absurd hx (List.not_mem_nil x)
  | cons hd rest ih =>
    rintro ⟨x, hx, hbad⟩
    obtain ⟨pid, qty⟩ := hd
    unfold validateItems
    cases hf : findKV s pid with
    | none => exact ⟨_, rfl⟩
    | some p =>
      by_cases hact : p.isActive = false
      · exact ⟨.productUnavailable pid, by simp [hact]⟩
      · have hact' : p.isActive = true := by
          cases hA : p.isActive
          · exact absurd hA hact
          · rfl
        by_cases hstk : p.stock < (qty : ℤ)
        · exact ⟨.insufficientStock pid, by simp [hact, hstk]⟩
        · have hrest : ∃ y ∈ rest, lineBadB s y = true := by
            rcases List.mem_cons.mp hx with hxh | hxr
            · exfalso
              rw [hxh] at hbad
              unfold lineBadB at hbad
              rw [hf] at hbad
              simp [hact', hstk] at hbad
            · exact ⟨x, hxr, hbad⟩
          obtain ⟨e, he⟩ := ih hrest
          exact ⟨e, by simp [hact, hstk, he]⟩

theorem placeOrder_error {st : SystemState} {uid : ℕ} {items : List (ℕ × ℕ)}
    {st' : SystemState} {e : OrderError}
    (h : placeOrder st uid items = (st', .error e)) : st' = st := by
  unfold placeOrder at h
  split at h
  next => exact (congrArg Prod.fst h).symm
  next =>
    split at h
    next => exact (congrArg Prod.fst h).symm
    next => exact absurd (congrArg Prod.snd h) (by simp)

theorem placeOrder_ok {st : SystemState} {uid : ℕ} {items : List (ℕ × ℕ)}
    {st' : SystemState} {o : Order}
    (h : placeOrder st uid items = (st', .ok o)) :
    ∃ oitems s2, validateItems st.store items = .ok oitems ∧
      o = mkOrder uid oitems ∧
      decrementAll st.store oitems = .ok s2 ∧
      st' = { store := s2, carts := clearCartForUser st.carts uid,
              orders := st.orders ++ [(st.orders.length, o)] } := by
  unfold placeOrder at h
  split at h
  next => exact absurd (congrArg Prod.snd h) (by simp)
  next =>
    split at h
    next => exact absurd (congrArg Prod.snd h) (by simp)
    next s2 os2 o2 htxn =>
      have ho : o2 = o := Except.ok.inj (congrArg Prod.snd h)
      have hst : st' = { store := s2, carts := clearCartForUser st.carts uid,
                         orders := os2 } := (congrArg Prod.fst h).symm
      unfold placeOrderTxn at htxn
      split at htxn
      next => exact absurd htxn (by simp)
      next oitems hval =>
        split at htxn
        next => exact absurd htxn (by simp)
        next s3 hdec =>
          have h3 := Except.ok.inj htxn
          have hs3 : s3 = s2 := congrArg (fun t => t.1) h3
          have hos : st.orders ++ [(st.orders.length, mkOrder uid oitems)] = os2 :=
            congrArg (fun t => t.2.1) h3
          have hmk : mkOrder uid oitems = o2 := congrArg (fun t => t.2.2) h3
          refine ⟨oitems, s2, hval, by rw [← ho, ← hmk], by rw [← hs3]; exact hdec, ?_⟩
          rw [hst, ← hos, ← ho, ← hmk]

/-- Claim C2: an order-placement attempt that fails — any line's product
missing or inactive, understocked at validation or at commit time, or a
conditional stock adjustment failing — aborts with no visible effect: store,
carts and order collection are all exactly as before the attempt; and a
line that the validation predicate flags always makes the attempt abort
that way. -/
theorem claim_C2 :
    (∀ st uid items st' e, placeOrder st uid items = (st', .error e) →
       st'.orders = st.orders ∧ st'.carts = st.carts ∧
       ∀ pid, findKV st'.store pid = findKV st.store pid) ∧
    (∀ st uid items, (∃ x ∈ items, lineBadB st.store x = true) →
       ∃ e, placeOrder st uid items = (st, .error e)) := by
  constructor
  · intro st uid items st' e h
    have := placeOrder_error h
    rw [this]
    exact ⟨rfl, rfl, fun _ => rfl⟩
  · intro st uid items hbad
    have hne : items.isEmpty = false := by
      obtain ⟨x, hx, _⟩ := hbad
      cases items with
      | nil => exact absurd hx (List.not_mem_nil x)
      | cons hd tl => rfl
    obtain ⟨e, he⟩ := validateItems_error_of_bad hbad
    refine ⟨e, ?_⟩
    unfold placeOrder
    rw [hne]
    unfold placeOrderTxn
    rw [he]
    rfl

/-- Inactive product with id 2 (the spec's deactivated product Q). -/
def specProductQ : Product :=
  { name := "Q", price := 50, stock := 5, version := 0, isLocked := false,
    lockedAt := none, lockedBy := none, isActive := false, totalSold := 0 }

/-- Store for the C2 scenario: P active with stock 2, Q deactivated. -/
def specStoreC2 : Store := [(1, { specProduct with stock := 2 }), (2, specProductQ)]

/-- System state for the C2 scenario. -/
def specStateC2 : SystemState := { store := specStoreC2, carts := [], orders := [] }

/-- Witness for C2 at the spec's scenario: the cart asks for 2 of P
(stock 2) and 1 of Q, but Q was deactivated; the whole attempt aborts with
an error and the state — P's stock included — is untouched. -/
theorem claim_C2_witness :
    ∃ e, placeOrder specStateC2 42 [(1, 2), (2, 1)] = (specStateC2, .error e) :=
  claim_C2.2 specStateC2 42 [(1, 2), (2, 1)]
    ⟨(2, 1), by decide, rfl⟩

theorem validateItems_total {s : Store} :
    ∀ {items : List (ℕ × ℕ)} {l : List OrderItem},
      validateItems s items = .ok l →
      ∀ it ∈ l, it.total = (it.quantity : ℚ) * it.price := by
  intro items
  induction items with
  | nil =>
    intro l h it hit
    unfold validateItems at h
    cases h
    exact absurd hit (List.not_mem_nil it)
  | cons hd rest ih =>
    intro l h it hit
    obtain ⟨pid, qty⟩ := hd
    unfold validateItems at h
    split at h
    next => exact absurd h (by simp)
    next p hf =>
      split at h
      next => exact absurd h (by simp)
      next hact =>
        split at h
        next => exact absurd h (by simp)
        next hstk =>
          split at h
          next => exact absurd h (by simp)
          next tl htl =>
            cases h
            rcases List.mem_cons.mp hit with hh | hr
            · rw [hh]
            · exact ih htl it hr

/-- Claim C4 (amended): each stored line total is quantity × unit price with
no per-line rounding; the order's total amount is the raw sum of those line
totals rounded once to currency precision — so the rounded sum of the
stored line totals equals the stored total amount. -/
theorem claim_C4_amended :
    ∀ st uid items st' o, placeOrder st uid items = (st', .ok o) →
      o.totalAmount = round2 (sumTotals o.items) ∧
      ∀ it ∈ o.items, it.total = (it.quantity : ℚ) * it.price := by
  intro st uid items st' o h
  obtain ⟨oitems, s2, hval, ho, _, _⟩ := placeOrder_ok h
  subst ho
  exact ⟨rfl, validateItems_total hval⟩

/-- Product whose price (1.005) has more than two decimals — admitted by the
`isFloat({min: 0, max: 999999})` validation on product creation. -/
def c4Product : Product :=
  { name := "W", price := mkRat 1005 1000, stock := 5, version := 0,
    isLocked := false, lockedAt := none, lockedBy := none, isActive := true,
    totalSold := 0 }

/-- The line the order pipeline stores for one unit of `c4Product`: its
total is the raw product 1.005, not the currency-rounded 1.01. -/
def c4Item : OrderItem :=
  { productId := 1, productName := "W", quantity := 1, price := mkRat 1005 1000,
    total := mkRat 1005 1000 }

/-- The committed order for that line: total amount 1.01 (rounded once). -/
def c4Order : Order :=
  { userId := 5, items := [c4Item], totalAmount := mkRat 101 100,
    status := .pending }

/-- Counterexample for C4: ordering one unit of a product priced 1.005
stores the line total 1.005, which differs from quantity × unit price
rounded to currency precision (1.01) — so line totals are not rounded
before summation, and the exact sum of stored line totals (1.005) differs
from the stored total amount (1.01). -/
theorem claim_C4_counterexample :
    (placeOrder { store := [(1, c4Product)], carts := [], orders := [] }
        5 [(1, 1)]).2 = .ok c4Order ∧
    c4Item.total ≠ round2 ((c4Item.quantity : ℚ) * c4Item.price) ∧
    sumTotals c4Order.items ≠ c4Order.totalAmount := by
  refine ⟨?_, ?_, ?_⟩
  · norm_num [placeOrder, placeOrderTxn, validateItems, decrementAll,
      updateStockSafe, stockReadPhase, stockWritePhase, incTotalSold, findKV,
      setKV, mkOrder, sumTotals, round2, Rat.floor, c4Product, c4Order, c4Item]
  · norm_num [c4Item, round2, Rat.floor]
  · norm_num [c4Order, c4Item, sumTotals]

/-- The order committed by the C4/C10 witness run: two units of P at 100. -/
def specOrderW : Order :=
  { userId := 42, items := [⟨1, "P", 2, 100, 200⟩], totalAmount := 200,
    status := .pending }

/-- The post-placement state of the C4 witness run. -/
def specStateW : SystemState :=
  { store := [(1, { specProduct with stock := 8, version := 4, totalSold := 2 })],
    carts := [(42, ⟨[]⟩)], orders := [(0, specOrderW)] }

/-- Witness for C4 (amended) at a concrete committed order: two units of P
at price 100 give a stored line total of 200 and a total amount of 200. -/
theorem claim_C4_witness :
    specOrderW.totalAmount = round2 (sumTotals specOrderW.items) ∧
    ∀ it ∈ specOrderW.items, it.total = (it.quantity : ℚ) * it.price :=
  claim_C4_amended { store := specStore, carts := [], orders := [] } 42
    [(1, 2)] specStateW specOrderW (by
      norm_num [placeOrder, placeOrderTxn, validateItems, decrementAll,
        updateStockSafe, stockReadPhase, stockWritePhase, incTotalSold, findKV,
        setKV, mkOrder, sumTotals, round2, Rat.floor, specStore, specProduct,
        specStateW, specOrderW, clearCartForUser, setCart, removeKey])

/-- Claim C10: after every successful order placement the placing user's
cart is reset to completely empty — whatever lines it held, including lines
for products absent from the submitted item list — while every other user's
cart binding is untouched. -/
theorem claim_C10 :
    ∀ st uid items st' o, placeOrder st uid items = (st', .ok o) →
      findKV st'.carts uid = some ⟨[]⟩ ∧
      ∀ u, u ≠ uid → findKV st'.carts u = findKV st.carts u := by
  intro st uid items st' o h
  obtain ⟨oitems, s2, _, _, _, hst⟩ := placeOrder_ok h
  rw [hst]
  exact ⟨findKV_setCart_self _ _ _, fun u hu => findKV_setCart_ne _ _ _ hu⟩

/-- Cart of the ordering user before the C10 witness run: it holds a line
for product 3, which the submitted order does not mention. -/
def c10Cart : Cart := ⟨[⟨3, "X", 5, 1, 5⟩]⟩

/-- Another user's cart, which must survive the run unchanged. -/
def c10CartOther : Cart := ⟨[⟨1, "P", 100, 2, 200⟩]⟩

/-- Pre-placement state for the C10 witness. -/
def c10State : SystemState :=
  { store := specStore, carts := [(42, c10Cart), (7, c10CartOther)], orders := [] }

/-- Witness for C10: user 42 orders two units of product 1 while their cart
holds only a line for product 3; afterwards their cart is empty and user 7's
cart binding reads exactly as before. -/
theorem claim_C10_witness :
    findKV ((placeOrder c10State 42 [(1, 2)]).1).carts 42 = some ⟨[]⟩ ∧
    ∀ u, u ≠ 42 → findKV ((placeOrder c10State 42 [(1, 2)]).1).carts u =
      findKV c10State.carts u :=
  claim_C10 c10State 42 [(1, 2)] _ _ rfl

theorem storeNonneg_nil : storeNonneg [] := by
  intro pid p h
  simp [findKV] at h

theorem storeNonneg_cons {k : ℕ} {p : Product} {rest : Store}
    (hp : 0 ≤ p.stock) (hr : storeNonneg rest) :
    storeNonneg ((k, p) :: rest) := by
  intro q pq h
  unfold findKV at h
  by_cases hk : k = q
  · simp only [hk, if_pos] at h
    rw [← Option.some.inj h]
    exact hp
  · simp only [hk, if_neg, if_false] at h
    exact hr q pq h

theorem placeOrder_nonneg (st : SystemState) (uid : ℕ) (items : List (ℕ × ℕ))
    (hs : storeNonneg st.store) :
    storeNonneg (placeOrder st uid items).1.store := by
  rcases hres : placeOrder st uid items with ⟨st', r⟩
  cases r with
  | error e =>
    rw [placeOrder_error hres]
    exact hs
  | ok o =>
    obtain ⟨oitems, s2, _, _, hdec, hst⟩ := placeOrder_ok hres
    rw [hst]
    exact decrementAll_nonneg hs hdec

theorem cancelOrder_nonneg (st : SystemState) (oid : ℕ) (uid : ℕ)
    (hs : storeNonneg st.store) :
    storeNonneg (cancelOrder st oid uid).1.store := by
  unfold cancelOrder
  split
  next => exact hs
  next o hf =>
    by_cases hu : o.userId ≠ uid
    · rw [if_pos hu]
      exact hs
    · rw [if_neg hu]
      by_cases hp : o.status ≠ OrderStatus.pending
      · rw [if_pos hp]
        exact hs
      · rw [if_neg hp]
        exact restoreAll_nonneg hs

theorem updateOrderStatus_nonneg (st : SystemState) (oid : ℕ)
    (ns : OrderStatus) (hs : storeNonneg st.store) :
    storeNonneg (updateOrderStatus st oid ns).1.store := by
  unfold updateOrderStatus
  split
  next => exact hs
  next o hf =>
    dsimp only
    by_cases hc : ns = OrderStatus.cancelled ∧
        ({ o with status := ns } : Order).status ≠ OrderStatus.cancelled
    · rw [if_pos hc]
      exact restoreAll_nonneg hs
    · rw [if_neg hc]
      exact hs

/-- `{ specProduct with stock := 3 }`: what the admin update writes. -/
def c3Product : Product := { specProduct with stock := 3 }

/-- Counterexample for C3: the admin product update (`PUT /api/products/:id`
with a `stock` field, a `findByIdAndUpdate` that bypasses the version hook)
commits a stock change from 10 to 3 while `version` stays 3 — the version
field does not strictly increase with this committed stock change. -/
theorem claim_C3_counterexample :
    adminUpdateProductStock specStore 1 3 = ([(1, c3Product)], some c3Product) ∧
    c3Product.stock ≠ specProduct.stock ∧
    c3Product.version = specProduct.version :=
  ⟨rfl, by decide, rfl⟩

/-- Claim C3 (amended): every operation that commits a stock change keeps
stock ≥ 0, and every stock change committed through `updateStockSafe`
(conditional adjustment, order placement, cancellation restore, admin stock
patch) increments the version by exactly one; but the admin product update
(`findByIdAndUpdate` with a `stock` field) commits its stock change leaving
the version unchanged. -/
theorem claim_C3_amended :
    (∀ s pid d s' p' p, storeNonneg s → updateStockSafe s pid d = .ok (s', p') →
       storeNonneg s' ∧ (findKV s pid = some p → p'.version = p.version + 1)) ∧
    (∀ st uid items, storeNonneg st.store →
       storeNonneg (placeOrder st uid items).1.store) ∧
    (∀ st oid uid, storeNonneg st.store →
       storeNonneg (cancelOrder st oid uid).1.store) ∧
    (∀ st oid ns, storeNonneg st.store →
       storeNonneg (updateOrderStatus st oid ns).1.store) ∧
    (∀ s pid n, storeNonneg s →
       storeNonneg (adminUpdateProductStock s pid n).1) ∧
    (∀ s pid n s2 p2, adminUpdateProductStock s pid n = (s2, some p2) →
       ∃ p, findKV s pid = some p ∧ p2.version = p.version ∧
         p2.stock = (n : ℤ)) := by
  refine ⟨?_, placeOrder_nonneg, cancelOrder_nonneg, updateOrderStatus_nonneg,
    ?_, ?_⟩
  · intro s pid d s' p' p hs h
    refine ⟨updateStockSafe_nonneg hs h, ?_⟩
    intro hf
    obtain ⟨q, hq, _, _, hp', _⟩ := updateStockSafe_ok h
    rw [hf] at hq
    cases hq
    rw [hp']
  · intro s pid n hs
    unfold adminUpdateProductStock
    split
    next => exact hs
    next p hf =>
      exact storeNonneg_setKV hs (Int.natCast_nonneg n)
  · intro s pid n s2 p2 h
    unfold adminUpdateProductStock at h
    split at h
    next => exact absurd (congrArg Prod.snd h) (by simp)
    next p hf =>
      have hp2 : p2 = { p with stock := (n : ℤ) } :=
        (Option.some.inj (congrArg Prod.snd h)).symm
      exact ⟨p, hf, by rw [hp2], by rw [hp2]⟩

/-- Witness for C3 (amended): on the spec store, a committed −6 adjustment
keeps stock ≥ 0 and bumps version 3 to 4; the admin update writing stock 3
leaves the version at the value it read. -/
theorem claim_C3_witness :
    (storeNonneg specStore1 ∧
       (findKV specStore 1 = some specProduct →
          specProduct1.version = specProduct.version + 1)) ∧
    ∃ p, findKV specStore 1 = some p ∧ c3Product.version = p.version ∧
      c3Product.stock = ((3 : ℕ) : ℤ) :=
  ⟨claim_C3_amended.1 specStore 1 (-6) specStore1 specProduct1 specProduct
     (storeNonneg_cons (by decide) storeNonneg_nil)
     (rfl : updateStockSafe specStore 1 (-6) = .ok (specStore1, specProduct1)),
   claim_C3_amended.2.2.2.2.2 specStore 1 3 [(1, c3Product)] c3Product rfl⟩

theorem sumQty_cons (it : OrderItem) (rest : List OrderItem) (pid : ℕ) :
    sumQty (it :: rest) pid =
      (if it.productId = pid then (it.quantity : ℤ) else 0) + sumQty rest pid :=
  rfl

theorem sumQty_eq_zero {items : List OrderItem} {pid : ℕ}
    (h : pid ∉ items.map OrderItem.productId) : sumQty items pid = 0 := by
  induction items with
  | nil => rfl
  | cons it rest ih =>
    simp only [List.map_cons, List.mem_cons] at h
    push_neg at h
    rw [sumQty_cons, if_neg (fun he => h.1 he.symm), ih h.2]
    simp

theorem sumQty_of_nodup :
    ∀ {items : List OrderItem}, (items.map OrderItem.productId).Nodup →
      ∀ {it : OrderItem}, it ∈ items →
        sumQty items it.productId = (it.quantity : ℤ) := by
  intro items
  induction items with
  | nil =>
    intro _ it hit
    exact absurd hit (List.not_mem_nil it)
  | cons hd rest ih =>
    intro hnd it hit
    simp only [List.map_cons, List.nodup_cons] at hnd
    rcases List.mem_cons.mp hit with hh | hr
    · subst hh
      rw [sumQty_cons, if_pos rfl, sumQty_eq_zero hnd.1]
      simp
    · have hne : hd.productId ≠ it.productId := by
        intro he
        exact hnd.1 (he ▸ List.mem_map_of_mem OrderItem.productId hr)
      rw [sumQty_cons, if_neg hne, ih hnd.2 hr]
      simp

theorem restoreAll_stock :
    ∀ (items : List OrderItem) (s : Store), (restoreAll s items).2 = true →
      ∀ pid p, findKV s pid = some p →
        ∃ p2, findKV (restoreAll s items).1 pid = some p2 ∧
          p2.stock = p.stock + sumQty items pid := by
  intro items
  induction items with
  | nil =>
    intro s _ pid p hf
    exact ⟨p, hf, by simp [sumQty]⟩
  | cons it rest ih =>
    intro s htrue pid p hf
    cases hu : updateStockSafe s it.productId (it.quantity : ℤ) with
    | error e =>
      have heq : restoreAll s (it :: rest) = (s, false) := by
        unfold restoreAll
        rw [hu]
      rw [heq] at htrue
      exact absurd htrue (by simp)
    | ok r =>
      obtain ⟨s2, q2⟩ := r
      have heq : restoreAll s (it :: rest) = restoreAll s2 rest := by
        simp only [restoreAll]
        rw [hu]
      rw [heq] at htrue ⊢
      by_cases hpid : pid = it.productId
      · subst hpid
        obtain ⟨q, hq, _, _, hq2, _⟩ := updateStockSafe_ok hu
        rw [hf] at hq
        cases hq
        have hq2s : q2.stock = p.stock + (it.quantity : ℤ) := by rw [hq2]
        obtain ⟨p3, hp3, hstock⟩ :=
          ih s2 htrue it.productId q2 (updateStockSafe_find hu)
        refine ⟨p3, hp3, ?_⟩
        rw [hstock, hq2s, sumQty_cons, if_pos rfl]
        omega
      · have hfind2 : findKV s2 pid = some p := by
          rw [updateStockSafe_frame hu hpid]
          exact hf
        obtain ⟨p3, hp3, hstock⟩ := ih s2 htrue pid p hfind2
        refine ⟨p3, hp3, ?_⟩
        rw [hstock, sumQty_cons, if_neg (fun he => hpid he.symm)]
        omega

theorem cancelOrder_ok {st : SystemState} {oid uid : ℕ} {st' : SystemState}
    {o2 : Order} (h : cancelOrder st oid uid = (st', .ok o2)) :
    ∃ o, findKV st.orders oid = some o ∧ o.userId = uid ∧
      o.status = OrderStatus.pending ∧
      o2 = { o with status := OrderStatus.cancelled } ∧
      st' = { store := (restoreAll st.store o.items).1, carts := st.carts,
              orders := setKV st.orders oid o2 } := by
  unfold cancelOrder at h
  split at h
  next => exact absurd (congrArg Prod.snd h) (by simp)
  next o hf =>
    by_cases hu : o.userId ≠ uid
    · rw [if_pos hu] at h
      exact absurd (congrArg Prod.snd h) (by simp)
    · rw [if_neg hu] at h
      by_cases hp : o.status ≠ OrderStatus.pending
      · rw [if_pos hp] at h
        exact absurd (congrArg Prod.snd h) (by simp)
      · rw [if_neg hp] at h
        have ho2 : o2 = { o with status := OrderStatus.cancelled } :=
          (Except.ok.inj (congrArg Prod.snd h)).symm
        refine ⟨o, hf, not_not.mp hu, not_not.mp hp, ho2, ?_⟩
        rw [ho2]
        exact (congrArg Prod.fst h).symm

theorem cancelOrder_invalid {st : SystemState} {oid uid : ℕ} {o : Order}
    (hf : findKV st.orders oid = some o) (hu : o.userId = uid)
    (hp : o.status ≠ OrderStatus.pending) :
    cancelOrder st oid uid = (st, .error .invalidState) := by
  unfold cancelOrder
  rw [hf]
  dsimp only
  rw [if_neg (fun h => h hu), if_pos hp]

/-- Claim C5: cancellation is permitted only while the order is pending; on
success the order's status becomes cancelled and, absent a restoration
failure (and with one line per product), every line's product gains back
exactly that line's quantity; a second cancellation of the same order fails
with InvalidState and changes nothing. -/
theorem claim_C5 :
    (∀ st oid uid o, findKV st.orders oid = some o → o.userId = uid →
       o.status ≠ OrderStatus.pending →
       cancelOrder st oid uid = (st, .error .invalidState)) ∧
    (∀ st oid uid st' o2, cancelOrder st oid uid = (st', .ok o2) →
       ∃ o, findKV st.orders oid = some o ∧ o.status = OrderStatus.pending ∧
         o2 = { o with status := OrderStatus.cancelled } ∧
         findKV st'.orders oid = some o2 ∧
         ((restoreAll st.store o.items).2 = true →
            (o.items.map OrderItem.productId).Nodup →
            ∀ it ∈ o.items, ∀ p, findKV st.store it.productId = some p →
              ∃ p2, findKV st'.store it.productId = some p2 ∧
                p2.stock = p.stock + (it.quantity : ℤ))) ∧
    (∀ st oid uid st' o2, cancelOrder st oid uid = (st', .ok o2) →
       cancelOrder st' oid uid = (st', .error .invalidState)) := by
  have hb : ∀ st oid uid st' o2, cancelOrder st oid uid = (st', .ok o2) →
      ∃ o, findKV st.orders oid = some o ∧ o.status = OrderStatus.pending ∧
        o2 = { o with status := OrderStatus.cancelled } ∧
        findKV st'.orders oid = some o2 ∧
        ((restoreAll st.store o.items).2 = true →
           (o.items.map OrderItem.productId).Nodup →
           ∀ it ∈ o.items, ∀ p, findKV st.store it.productId = some p →
             ∃ p2, findKV st'.store it.productId = some p2 ∧
               p2.stock = p.stock + (it.quantity : ℤ)) := by
    intro st oid uid st' o2 h
    obtain ⟨o, hf, hu, hp, ho2, hst⟩ := cancelOrder_ok h
    refine ⟨o, hf, hp, ho2, ?_, ?_⟩
    · rw [hst]
      show findKV (setKV st.orders oid o2) oid = some o2
      rw [findKV_setKV_self, hf]
      rfl
    · intro hres hnd it hit p hfp
      obtain ⟨p2, hp2, hstock⟩ :=
        restoreAll_stock o.items st.store hres it.productId p hfp
      refine ⟨p2, ?_, ?_⟩
      · rw [hst]
        exact hp2
      · rw [hstock, sumQty_of_nodup hnd hit]
  refine ⟨?_, hb, ?_⟩
  · intro st oid uid o hf hu hp
    exact cancelOrder_invalid hf hu hp
  · intro st oid uid st' o2 h
    obtain ⟨o, hf, huid, hp, ho2, hst⟩ := cancelOrder_ok h
    have hfind : findKV st'.orders oid = some o2 := by
      rw [hst]
      show findKV (setKV st.orders oid o2) oid = some o2
      rw [findKV_setKV_self, hf]
      rfl
    apply cancelOrder_invalid hfind
    · rw [ho2]
      exact huid
    · rw [ho2]
      intro hc
      exact absurd hc (by simp)

/-- Product P with stock 7 (after an order of 3 units out of 10). -/
def c5Product : Product := { specProduct with stock := 7 }

/-- The pending order of 3 units of P. -/
def c5Order : Order :=
  { userId := 42, items := [⟨1, "P", 3, 100, 300⟩], totalAmount := 300,
    status := OrderStatus.pending }

/-- State before the cancellation: stock 7, one pending order. -/
def c5State : SystemState :=
  { store := [(1, c5Product)], carts := [], orders := [(0, c5Order)] }

/-- `c5Order` after cancellation. -/
def c5Cancelled : Order := { c5Order with status := OrderStatus.cancelled }

/-- State after the cancellation: stock restored to 10, version bumped. -/
def c5StateAfter : SystemState :=
  { store := [(1, { specProduct with stock := 10, version := 4 })],
    carts := [], orders := [(0, c5Cancelled)] }

/-- Witness for C5 at the spec's scenario: cancelling the pending order of 3
restores stock 7 → 10; a second cancellation of the same order returns
InvalidState and leaves the state untouched. -/
theorem claim_C5_witness :
    (∃ o, findKV c5State.orders 0 = some o ∧ o.status = OrderStatus.pending ∧
       c5Cancelled = { o with status := OrderStatus.cancelled } ∧
       findKV c5StateAfter.orders 0 = some c5Cancelled ∧
       ((restoreAll c5State.store o.items).2 = true →
          (o.items.map OrderItem.productId).Nodup →
          ∀ it ∈ o.items, ∀ p, findKV c5State.store it.productId = some p →
            ∃ p2, findKV c5StateAfter.store it.productId = some p2 ∧
              p2.stock = p.stock + (it.quantity : ℤ))) ∧
    cancelOrder c5StateAfter 0 42 = (c5StateAfter, .error .invalidState) :=
  ⟨claim_C5.2.1 c5State 0 42 c5StateAfter c5Cancelled rfl,
   claim_C5.2.2 c5State 0 42 c5StateAfter c5Cancelled rfl⟩

theorem updateOrderStatus_some {st : SystemState} {oid : ℕ} {o : Order}
    (ns : OrderStatus) (hf : findKV st.orders oid = some o) :
    updateOrderStatus st oid ns =
      ({ store := st.store, carts := st.carts,
         orders := setKV st.orders oid { o with status := ns } },
       .ok { o with status := ns }) := by
  unfold updateOrderStatus
  rw [hf]
  dsimp only
  rw [if_neg (fun hc => hc.2 hc.1)]

/-- A delivered order (for the C6 counterexample). -/
def c6Delivered : Order :=
  { userId := 42, items := [], totalAmount := 0, status := OrderStatus.delivered }

def c6DeliveredToPending : Order := { c6Delivered with status := OrderStatus.pending }

/-- A shipped order (for the C6 counterexample). -/
def c6Shipped : Order := { c6Delivered with status := OrderStatus.shipped }

def c6ShippedToCancelled : Order := { c6Delivered with status := OrderStatus.cancelled }

/-- State holding the delivered order at id 0. -/
def c6StateDelivered : SystemState :=
  { store := specStore, carts := [], orders := [(0, c6Delivered)] }

/-- State holding the shipped order at id 0. -/
def c6StateShipped : SystemState :=
  { store := specStore, carts := [], orders := [(0, c6Shipped)] }

/-- Counterexample for C6: the admin status route moves a delivered order
back to pending, and sets a shipped (non-pending) order to cancelled — both
requests succeed, so status transitions are not monotonic and cancellation
is not restricted to pending orders. -/
theorem claim_C6_counterexample :
    (updateOrderStatus c6StateDelivered 0 OrderStatus.pending).2 =
      .ok c6DeliveredToPending ∧
    c6Delivered.status = OrderStatus.delivered ∧
    c6DeliveredToPending.status = OrderStatus.pending ∧
    (updateOrderStatus c6StateShipped 0 OrderStatus.cancelled).2 =
      .ok c6ShippedToCancelled ∧
    c6Shipped.status ≠ OrderStatus.pending ∧
    c6ShippedToCancelled.status = OrderStatus.cancelled :=
  ⟨rfl, rfl, rfl, rfl, by decide, rfl⟩

/-- Claim C6 (amended): the customer cancel endpoint cancels only pending
orders, but the admin status endpoint writes any requested status over any
current status with no transition check — its cancellation branch never
restores stock because the guard reads the already-updated document — so
order status transitions are not monotonic. -/
theorem claim_C6_amended :
    (∀ st oid ns st' o2, updateOrderStatus st oid ns = (st', .ok o2) →
       ∃ o, findKV st.orders oid = some o ∧ o2 = { o with status := ns } ∧
         st'.store = st.store ∧ st'.carts = st.carts ∧
         findKV st'.orders oid = some o2) ∧
    (∀ st oid ns, (updateOrderStatus st oid ns).1.store = st.store) ∧
    (∀ st oid uid st' o2, cancelOrder st oid uid = (st', .ok o2) →
       ∃ o, findKV st.orders oid = some o ∧ o.status = OrderStatus.pending ∧
         o2.status = OrderStatus.cancelled) := by
  refine ⟨?_, ?_, ?_⟩
  · intro st oid ns st' o2 h
    cases hf : findKV st.orders oid with
    | none =>
      unfold updateOrderStatus at h
      rw [hf] at h
      exact absurd (congrArg Prod.snd h) (by simp)
    | some o =>
      rw [updateOrderStatus_some ns hf] at h
      have ho2 : o2 = { o with status := ns } :=
        (Except.ok.inj (congrArg Prod.snd h)).symm
      have hst : st' = { store := st.store, carts := st.carts,
                         orders := setKV st.orders oid { o with status := ns } } :=
        (congrArg Prod.fst h).symm
      refine ⟨o, rfl, ho2, by rw [hst], by rw [hst], ?_⟩
      rw [hst, ho2]
      show findKV (setKV st.orders oid _) oid = _
      rw [findKV_setKV_self, hf]
      rfl
  · intro st oid ns
    cases hf : findKV st.orders oid with
    | none =>
      unfold updateOrderStatus
      rw [hf]
    | some o =>
      rw [updateOrderStatus_some ns hf]
  · intro st oid uid st' o2 h
    obtain ⟨o, hf, _, hp, ho2, _⟩ := cancelOrder_ok h
    exact ⟨o, hf, hp, by rw [ho2]⟩

/-- Witness for C6 (amended) at a concrete input: writing `processing` over
the pending order stored at id 0 succeeds, the store is untouched, and the
customer cancel run from the C5 scenario cancels only a pending order. -/
theorem claim_C6_witness :
    (∃ o, findKV c5State.orders 0 = some o ∧
       { c5Order with status := OrderStatus.processing } =
         { o with status := OrderStatus.processing } ∧
       (updateOrderStatus c5State 0 OrderStatus.processing).1.store =
         c5State.store ∧
       (updateOrderStatus c5State 0 OrderStatus.processing).1.carts =
         c5State.carts ∧
       findKV (updateOrderStatus c5State 0 OrderStatus.processing).1.orders 0 =
         some { c5Order with status := OrderStatus.processing }) ∧
    (∃ o, findKV c5State.orders 0 = some o ∧ o.status = OrderStatus.pending ∧
       c5Cancelled.status = OrderStatus.cancelled) :=
  ⟨claim_C6_amended.1 c5State 0 OrderStatus.processing
     (updateOrderStatus c5State 0 OrderStatus.processing).1
     { c5Order with status := OrderStatus.processing } rfl,
   claim_C6_amended.2.2 c5State 0 42 c5StateAfter c5Cancelled rfl⟩

/-- Claim C9 (amended): adding to the cart fails with NotFound when the
product is missing or inactive and with InsufficientStock when the new
quantity (or, for a merge, existing + new) exceeds current stock; a fresh
line stores a full price snapshot whose total is price × quantity; a merged
line's quantity and total are overwritten — the total computed with the
current product price — but its stored unit-price snapshot is not
refreshed, so the stored total is (existing + new) × current price while
the stored price stays the old snapshot. -/
theorem claim_C9_amended :
    (∀ s cs uid pid (qty : ℕ), findKV s pid = none →
       addToCart s cs uid pid qty = .error .notFound) ∧
    (∀ s cs uid pid (qty : ℕ) p, findKV s pid = some p → p.isActive = false →
       addToCart s cs uid pid qty = .error .notFound) ∧
    (∀ s cs uid pid (qty : ℕ) p, findKV s pid = some p → p.isActive = true →
       p.stock < (qty : ℤ) →
       addToCart s cs uid pid qty = .error .insufficientStock) ∧
    (∀ s cs uid pid (qty : ℕ) p old, findKV s pid = some p → p.isActive = true →
       ¬ p.stock < (qty : ℤ) →
       findCartItem ((findKV cs uid).getD ⟨[]⟩).items pid = some old →
       p.stock < ((old.quantity + qty : ℕ) : ℤ) →
       addToCart s cs uid pid qty = .error .insufficientStock) ∧
    (∀ s cs uid pid (qty : ℕ) p, findKV s pid = some p → p.isActive = true →
       ¬ p.stock < (qty : ℤ) →
       findCartItem ((findKV cs uid).getD ⟨[]⟩).items pid = none →
       ∃ it2, addToCart s cs uid pid qty =
           .ok (setCart cs uid ⟨((findKV cs uid).getD ⟨[]⟩).items ++ [it2]⟩, it2) ∧
         it2.price = p.price ∧ it2.quantity = qty ∧
         it2.total = (it2.quantity : ℚ) * it2.price) ∧
    (∀ s cs uid pid (qty : ℕ) p old, findKV s pid = some p → p.isActive = true →
       ¬ p.stock < (qty : ℤ) →
       findCartItem ((findKV cs uid).getD ⟨[]⟩).items pid = some old →
       ¬ p.stock < ((old.quantity + qty : ℕ) : ℤ) →
       ∃ it2, addToCart s cs uid pid qty =
           .ok (setCart cs uid
                  ⟨updateFirstItem ((findKV cs uid).getD ⟨[]⟩).items pid it2⟩,
                it2) ∧
         it2.price = old.price ∧ it2.quantity = old.quantity + qty ∧
         it2.total = ((old.quantity + qty : ℕ) : ℚ) * p.price) := by
  have hactive : ∀ p : Product, p.isActive = true → ¬ (p.isActive = false) := by
    intro p h hc
    rw [h] at hc
    exact absurd hc (by simp)
  refine ⟨?_, ?_, ?_, ?_, ?_, ?_⟩
  · intro s cs uid pid qty hf
    unfold addToCart
    rw [hf]
  · intro s cs uid pid qty p hf hact
    unfold addToCart
    rw [hf]
    dsimp only
    rw [if_pos hact]
  · intro s cs uid pid qty p hf hact hstk
    unfold addToCart
    rw [hf]
    dsimp only
    rw [if_neg (hactive p hact), if_pos hstk]
  · intro s cs uid pid qty p old hf hact hstk hci hover
    unfold addToCart
    rw [hf]
    dsimp only
    rw [if_neg (hactive p hact), if_neg hstk, hci]
    dsimp only
    rw [if_pos hover]
  · intro s cs uid pid qty p hf hact hstk hci
    unfold addToCart
    rw [hf]
    dsimp only
    rw [if_neg (hactive p hact), if_neg hstk, hci]
    exact ⟨_, rfl, rfl, rfl, rfl⟩
  · intro s cs uid pid qty p old hf hact hstk hci hnover
    unfold addToCart
    rw [hf]
    dsimp only
    rw [if_neg (hactive p hact), if_neg hstk, hci]
    dsimp only
    rw [if_neg hnover]
    exact ⟨_, rfl, rfl, rfl, rfl⟩

/-- Product 1 priced 10 with stock 5 (before the price change). -/
def c9Product10 : Product := { specProduct with price := 10, stock := 5 }

/-- The same product after an admin price change to 20. -/
def c9Product20 : Product := { specProduct with price := 20, stock := 5 }

def c9Store10 : Store := [(1, c9Product10)]

def c9Store20 : Store := [(1, c9Product20)]

/-- The cart line stored by the first add: snapshot price 10. -/
def c9Item1 : CartItem :=
  { productId := 1, productName := "P", price := 10, quantity := 1, total := 10 }

def c9Carts1 : Carts := [(7, ⟨[c9Item1]⟩)]

/-- The merged line after the second add at current price 20: quantity 2,
total 40, but the stored snapshot price still 10. -/
def c9Item2 : CartItem :=
  { productId := 1, productName := "P", price := 10, quantity := 2, total := 40 }

/-- Counterexample for C9: user 7 adds one unit at price 10, the price
changes to 20, and a second add merges the line to quantity 2 with total
2 × 20 = 40 while the stored price snapshot stays 10 — so the stored line's
total (40) is not its stored price × quantity (20), and the snapshot was
not refreshed. -/
theorem claim_C9_counterexample :
    addToCart c9Store10 [] 7 1 1 = .ok (c9Carts1, c9Item1) ∧
    addToCart c9Store20 c9Carts1 7 1 1 = .ok ([(7, ⟨[c9Item2]⟩)], c9Item2) ∧
    c9Item2.total ≠ c9Item2.price * (c9Item2.quantity : ℚ) ∧
    c9Item2.price ≠ c9Product20.price := by
  refine ⟨?_, ?_, ?_, ?_⟩
  · norm_num [addToCart, findKV, findCartItem, updateFirstItem, setCart,
      removeKey, c9Store10, c9Product10, c9Carts1, c9Item1, specProduct]
  · norm_num [addToCart, findKV, findCartItem, updateFirstItem, setCart,
      removeKey, c9Store20, c9Product20, c9Carts1, c9Item1, c9Item2,
      specProduct]
  · norm_num [c9Item2]
  · norm_num [c9Item2, c9Product20, specProduct]

/-- Witness for C9 (amended): a missing product is refused; a fresh add of
one unit at price 10 stores the snapshot line; the merge over the changed
price keeps the old snapshot price 10 while recomputing the total at the
current price 20. -/
theorem claim_C9_witness :
    addToCart [] [] 7 1 1 = .error .notFound ∧
    (∃ it2, addToCart c9Store10 [] 7 1 1 =
        .ok (setCart [] 7 ⟨((findKV ([] : Carts) 7).getD ⟨[]⟩).items ++ [it2]⟩,
             it2) ∧
      it2.price = c9Product10.price ∧ it2.quantity = 1 ∧
      it2.total = (it2.quantity : ℚ) * it2.price) ∧
    (∃ it2, addToCart c9Store20 c9Carts1 7 1 1 =
        .ok (setCart c9Carts1 7
               ⟨updateFirstItem ((findKV c9Carts1 7).getD ⟨[]⟩).items 1 it2⟩,
             it2) ∧
      it2.price = c9Item1.price ∧ it2.quantity = c9Item1.quantity + 1 ∧
      it2.total = ((c9Item1.quantity + 1 : ℕ) : ℚ) * c9Product20.price) :=
  ⟨claim_C9_amended.1 [] [] 7 1 1 rfl,
   claim_C9_amended.2.2.2.2.1 c9Store10 [] 7 1 1 c9Product10 rfl rfl
     (by decide) rfl,
   claim_C9_amended.2.2.2.2.2 c9Store20 c9Carts1 7 1 1 c9Product20 c9Item1
     rfl rfl (by decide) rfl (by decide)⟩

end ItwaarBazaar
